import Mathlib

/-!
Verification of the recipe-chatbot repository: a shallow embedding of the
synthetic-query generation pipeline (`homeworks/hw2/gen_mixed_synth_queries.py`)
and of the chatbot response wrapper (`backend/utils.py`), together with
theorems settling the specification claims about them.

Modelling conventions:
* The external generation provider is a parameter.  A structured call made by
  `call_llm` on attempt `i` is modelled by `provider i : Except E A` — `ok` for
  a payload that decodes into the requested schema, `error` for any failure
  (network error, malformed payload, schema mismatch: the source treats all of
  these as one retryable class caught by a single `except`).
* `time.sleep(1)` is modelled by counting slept time units in the call trace.
* Thread-pool completion order (`as_completed`) is an explicit list of task
  indices handed to the collector.
* `random.shuffle` is the Fisher–Yates loop of CPython, parameterised by the
  random draws.
* Writing a CSV file is modelled by the value `save_queries_to_csv` returns:
  `none` when no file is created, `some rows` for a file with those rows.
-/

/-! Chat data model (backend) -/

/-- A role-tagged chat message, the `{"role": ..., "content": ...}` dict of the
Python sources. -/
structure ChatMessage where
  role : String
  content : String
deriving DecidableEq, Repr

/-- The fixed instruction text `SYSTEM_PROMPT` of `backend/prompts.py`. -/
def SYSTEM_PROMPT : String := "\nYou are a warm, patient, and knowledgeable cooking assistant designed for beginners and inexperienced cooks. Your primary goal is to teach users how to cook—not just follow recipes—by explaining the steps clearly, offering encouragement, and helping them build confidence in the kitchen.\n\nROLE AND TARGET AUDIENCE\n- Help people who are new to cooking and may lack basic culinary knowledge.\n- Assume minimal cooking experience unless otherwise specified.\n\nPERSONALITY AND TONE\n- Speak like a loving grandmother: nurturing, supportive, and warm.\n- Never condescending; always gentle and encouraging.\n- Praise effort and learning progress regularly.\n- Maintain a cheerful, personal, and friendly tone.\n- Use playful, kind phrases when appropriate (e.g., “let’s give that a little stir, shall we?”).\n\nGENERAL BEHAVIORAL GUIDELINES\n- Focus strictly on cooking-related topics.\n- If asked off-topic questions, gently redirect with:\n  \"Oh sweetheart, I’m just your kitchen helper! Let’s focus on something yummy we can make together.”\n- Be patient with repeated or confused questions.\n- Explain your reasoning step-by-step when teaching or troubleshooting.\n- Occasionally reinforce user progress with compliments or reminders of what they’ve learned.\n\nCOOKING BEHAVIOR AND TEACHING STRATEGIES\n- Ask for food allergies and dislikes before giving any recipe suggestions.\n- Also ask about:\n  - Dietary needs or preferences\n  - Available cooking time\n  - Available ingredients\n  - Meal type or cravings\n  - Skill level or confidence\n- Use only metric units (grams, milliliters, Celsius).\n- Focus on teaching techniques and cooking logic, not just task execution.\n- Explain the \"why\" behind steps to help the user learn.\n- Offer simple substitutions and beginner-friendly alternatives.\n- Warn users about common beginner mistakes (e.g., burning garlic).\n- Offer encouragement and suggestions for retrying if something goes wrong.\n- Add fun facts or gentle wisdom to boost curiosity and enjoyment.\n\nRECIPE RESPONSE FORMAT (ALWAYS FOLLOW THIS EXACT STRUCTURE)\nRespond with recipes using this layout:\nRecipe Title\nShort, heartwarming introduction.\nIngredients:\n- [amount] [ingredient]\n- [amount] [ingredient]\nInstructions:\n1. Step-by-step instruction with clear reasoning\n2. Next step\n3. Continue as needed\nClosing note of encouragement.\n\nEXAMPLE:\nCozy One-Pot Chicken & Rice\nA comforting, easy dish — perfect for learning the joy of home cooking.\nIngredients:\n- 200g chicken breast, diced\n- 100g rice\n- 2 carrots, peeled and chopped\n- 500ml chicken stock\n- 1 tbsp olive oil\n- Salt and pepper, to taste\nInstructions:\n1. In a pot, heat the olive oil over medium heat. Add the chicken and cook until lightly browned — about 4–5 minutes.\n2. Stir in the carrots and let them cook for another 2 minutes.\n3. Add the rice and pour in the chicken stock. Stir everything together.\n4. Bring to a boil, then lower the heat and cover. Let it simmer for 15 minutes or until the rice is tender.\n5. Check if the liquid has absorbed — if not, give it a few more minutes with the lid off.\nLovely work, darling — this one’s going to be delicious!\n\nTROUBLESHOOTING EXAMPLE:\nIf the user says, “My scrambled eggs turned rubbery,” respond by asking a gentle clarifying question and follow with specific advice:\n“Oh dear, don’t worry! Did you perhaps cook them on high heat? Eggs like to be pampered, not rushed. Next time, cook them slowly over low heat and take them off just before they look fully done. They’ll finish cooking with the leftover warmth. You’re learning — and that’s what matters most!”\n\nSCOPE LIMITATIONS\nAllowed:\n- Recipes and instructions\n- Cooking technique explanations\n- Troubleshooting and substitutions\n- Kitchen safety related to cooking\n\nNot allowed:\n- Restaurant recommendations\n- Life advice\n- Medical or nutritional advice\n- Non-cooking topics\n\nYour role is to be a warm guide in the kitchen. Always be gentle, step-by-step, and encouraging.\n"

/-- Embedding of `backend/utils.get_agent_response`.  The provider call
`litellm.completion(...)["choices"][0]["message"]["content"]` is the parameter
`llm`, a function from the conversation actually sent to the returned content
string; the source then strips it and appends it as an assistant message. -/
def get_agent_response (llm : List ChatMessage → String)
    (messages : List ChatMessage) : List ChatMessage :=
  let current_messages : List ChatMessage :=
    if messages.head?.map ChatMessage.role ≠ some "system" then
      { role := "system", content := SYSTEM_PROMPT } :: messages
    else
      messages
  let assistant_reply_content : String := (llm current_messages).trim
  current_messages ++ [{ role := "assistant", content := assistant_reply_content }]

/-! A small heap model for the mutation claim: Python lists are cells in a
store, a variable holds a reference (cell index).  Building a list with `+`
allocates a fresh cell; the source never calls a mutating method
(`append`/`insert`/item assignment) on its argument, so the translation below
only reads the argument cell and allocates. -/

/-- The store of Python list values reachable in `get_agent_response`. -/
structure PyStore where
  cells : List (List ChatMessage)
deriving Repr

/-- Read the list a reference points to. -/
def readRef (h : PyStore) (r : Nat) : List ChatMessage :=
  h.cells.getD r []

/-- Allocate a fresh list cell (Python `list + list` builds a new list). -/
def allocRef (h : PyStore) (v : List ChatMessage) : PyStore × Nat :=
  ({ cells := h.cells ++ [v] }, h.cells.length)

/-- Store-level translation of `get_agent_response`: the conversation of the caller
is the cell `messagesRef`; the body reads it, allocates `current_messages`
when it prepends (otherwise the name aliases the argument, as in Python), and
allocates the extended list it returns. -/
def get_agent_response_store (llm : List ChatMessage → String)
    (h : PyStore) (messagesRef : Nat) : PyStore × Nat :=
  let messages := readRef h messagesRef
  let (h₁, currentRef) :=
    if messages.head?.map ChatMessage.role ≠ some "system" then
      allocRef h ({ role := "system", content := SYSTEM_PROMPT } :: messages)
    else
      (h, messagesRef)
  let assistant_reply_content := (llm (readRef h₁ currentRef)).trim
  allocRef h₁
    (readRef h₁ currentRef ++ [{ role := "assistant", content := assistant_reply_content }])

/-! Structured call wrapper (`call_llm`) -/

/-- Observable outcome of one `call_llm` invocation: the value produced
(`none` would mean the retry loop fell through, which with a positive retry
ceiling never happens), the number of provider invocations, and the total
units slept in `time.sleep(1)` calls. -/
structure CallTrace (E A : Type) where
  result : Option (Except E A)
  invocations : Nat
  sleepUnits : Nat
deriving Repr

/-- The retry ceiling `max_retries = 3` of `call_llm`. -/
def max_retries : Nat := 3

/-- The retry loop of `call_llm`, from attempt number `attempt` with `fuel`
loop iterations left.  Each iteration invokes the provider once; on success it
returns the decoded value; on failure it re-raises if this was the final
attempt and otherwise sleeps one unit and retries. -/
def callLLMGo {E A : Type} (provider : Nat → Except E A) :
    Nat → Nat → CallTrace E A
  | _, 0 => { result := none, invocations := 0, sleepUnits := 0 }
  | attempt, fuel + 1 =>
    match provider attempt with
    | Except.ok a =>
      { result := some (Except.ok a), invocations := 1, sleepUnits := 0 }
    | Except.error e =>
      if attempt = max_retries - 1 then
        { result := some (Except.error e), invocations := 1, sleepUnits := 0 }
      else
        let r := callLLMGo provider (attempt + 1) fuel
        { result := r.result, invocations := r.invocations + 1,
          sleepUnits := r.sleepUnits + 1 }

/-- Embedding of `call_llm`: run the retry loop over attempts
`0, …, max_retries - 1`. -/
def call_llm {E A : Type} (provider : Nat → Except E A) : CallTrace E A :=
  callLLMGo provider 0 max_retries

/-! Pipeline data model (hw2) -/

/-- The eight-attribute scenario descriptor `DimensionTuple`. -/
structure DimensionTuple where
  DietaryNeedsOrRestrictions : String
  AvailableIngredientsFocus : String
  CuisinePreference : String
  SkillLevelEffort : String
  TimeAvailability : String
  QueryStyleAndDetail : String
  UserContextOrScenario : String
  UserAbilityOrAccessibility : String
deriving DecidableEq, Repr, Inhabited

/-- One JSON field rendered the way pydantic renders it in `model_dump_json`. -/
def jsonField (name value : String) : String :=
  "\"" ++ name ++ "\":\"" ++ value ++ "\""

/-- The canonical field-by-field serialization `DimensionTuple.model_dump_json`:
fields in declaration order, as a JSON object. -/
def DimensionTuple.model_dump_json (t : DimensionTuple) : String :=
  "\x7b" ++ jsonField "DietaryNeedsOrRestrictions" t.DietaryNeedsOrRestrictions
  ++ "," ++ jsonField "AvailableIngredientsFocus" t.AvailableIngredientsFocus
  ++ "," ++ jsonField "CuisinePreference" t.CuisinePreference
  ++ "," ++ jsonField "SkillLevelEffort" t.SkillLevelEffort
  ++ "," ++ jsonField "TimeAvailability" t.TimeAvailability
  ++ "," ++ jsonField "QueryStyleAndDetail" t.QueryStyleAndDetail
  ++ "," ++ jsonField "UserContextOrScenario" t.UserContextOrScenario
  ++ "," ++ jsonField "UserAbilityOrAccessibility" t.UserAbilityOrAccessibility
  ++ "\x7d"

/-- The persisted record `QueryWithDimensions`.  The source declares
`is_realistic_and_kept` as the integer `1` (its truthy encoding of the
kept-for-analysis flag) and `notes_for_filtering` as the empty string; both
defaults are reserved for downstream review and never set by generation. -/
structure QueryWithDimensions where
  id : String
  query : String
  dimension_tuple : Option DimensionTuple
  query_type : String
  is_realistic_and_kept : Int := 1
  notes_for_filtering : String := ""
deriving DecidableEq, Repr

/-! Zero-padded decimal identifiers

The source builds ids with Python format strings `f"SYN{query_id:03d}"`,
`f"AMB{i + 1:03d}"`, `f"ADV{i + 1:03d}"`: the decimal digits of the number,
left-padded with the digit 0 to width 3. -/

/-- Little-endian decimal digits of `n`, with explicit fuel so the kernel can
evaluate it; `toDecimalAux n n` equals `Nat.digits 10 n`. -/
def toDecimalAux : Nat → Nat → List Nat
  | _, 0 => []
  | 0, _ + 1 => []
  | n + 1, fuel + 1 => ((n + 1) % 10) :: toDecimalAux ((n + 1) / 10) fuel

/-- Big-endian decimal digits of `n`, printing `0` as the single digit 0, as
the `%d` of Python does. -/
def decimalDigits (n : Nat) : List Nat :=
  if n = 0 then [0] else (toDecimalAux n n).reverse

/-- Left-pad a digit list with zeros to width 3 (the `03` in `{…:03d}`). -/
def padLeft3 (ds : List Nat) : List Nat :=
  List.replicate (3 - ds.length) 0 ++ ds

/-- The ASCII character of a decimal digit. -/
def decimalDigitChar (d : Nat) : Char := Char.ofNat (48 + d)

/-- The Python format `f"{n:03d}"`: decimal digits of `n`, zero-padded to width 3. -/
def pad3 (n : Nat) : String :=
  String.mk ((padLeft3 (decimalDigits n)).map decimalDigitChar)

/-- Regular-query id `f"SYN{query_id:03d}"`. -/
def synId (n : Nat) : String := "SYN" ++ pad3 n

/-- Ambiguous-query id `f"AMB{i + 1:03d}"`. -/
def ambId (n : Nat) : String := "AMB" ++ pad3 n

/-- Adversarial-query id `f"ADV{i + 1:03d}"`. -/
def advId (n : Nat) : String := "ADV" ++ pad3 n

/-! Dimension tuple generation -/

/-- The deduplication loop of `generate_dimension_tuples`: walk the returned
tuples keeping a `seen` set of canonical serializations, appending a tuple to
the output only when its serialization was not seen before. -/
def dedupTuples : List DimensionTuple → List String → List DimensionTuple
  | [], _ => []
  | tup :: rest, seen =>
    let tuple_str := tup.model_dump_json
    if tuple_str ∈ seen then
      dedupTuples rest seen
    else
      tup :: dedupTuples rest (tuple_str :: seen)

/-- Embedding of `generate_dimension_tuples`: one structured call through
`call_llm` requesting a `DimensionTuplesList`; on success the returned tuples
are deduplicated by canonical serialization; any raised failure is caught and
degrades to the empty list. -/
def generate_dimension_tuples {E : Type}
    (provider : Nat → Except E (List DimensionTuple)) : List DimensionTuple :=
  match (call_llm provider).result with
  | some (Except.ok tuples) => dedupTuples tuples []
  | _ => []

/-- Dedup as the specification words it: keep only the first occurrence of
each canonical (field-by-field JSON) serialization, in first-seen order.
Stated independently of the `seen`-set loop in the source, to be compared with it. -/
def firstOccurrenceDedup : List DimensionTuple → List DimensionTuple
  | [] => []
  | t :: rest =>
    t :: firstOccurrenceDedup
      (rest.filter (fun u => u.model_dump_json ≠ t.model_dump_json))
termination_by l => l.length
decreasing_by
  simp only [List.length_cons]
  exact Nat.lt_succ_of_le (List.length_filter_le _ _)

/-! Regular query generation (fan-out) -/

/-- Embedding of `generate_queries_for_tuple`: one structured call through
`call_llm` requesting a `QueriesList`; any raised failure is caught and
degrades to the empty list. -/
def generate_queries_for_tuple {E : Type}
    (provider : Nat → Except E (List String)) : List String :=
  match (call_llm provider).result with
  | some (Except.ok queries) => queries
  | _ => []

/-- The record-assembly loop body of `generate_queries_parallel`: one
`QueryWithDimensions` per returned query string, ids drawn from the shared
counter starting at `query_id`. -/
def mkRegularRecords (dim_tuple : DimensionTuple) :
    List String → Nat → List QueryWithDimensions
  | [], _ => []
  | query :: rest, query_id =>
    { id := synId query_id, query := query,
      dimension_tuple := some dim_tuple, query_type := "regular" }
      :: mkRegularRecords dim_tuple rest (query_id + 1)

/-- The collecting loop of `generate_queries_parallel`: drain the completed
futures in completion order `order`; a future that raised is logged and
contributes nothing; a returned query list becomes records tagged with the
source tuple of the task, ids allocated from the single shared counter. -/
def collectRegular {E : Type} (dimension_tuples : List DimensionTuple)
    (taskOutcome : Nat → Except E (List String)) :
    List Nat → Nat → List QueryWithDimensions
  | [], _ => []
  | tuple_idx :: rest, query_id =>
    match taskOutcome tuple_idx with
    | Except.error _ => collectRegular dimension_tuples taskOutcome rest query_id
    | Except.ok queries =>
      mkRegularRecords (dimension_tuples.getD tuple_idx default) queries query_id
        ++ collectRegular dimension_tuples taskOutcome rest (query_id + queries.length)

/-- Embedding of `generate_queries_parallel`: one task per dimension tuple is
submitted to the pool; `taskOutcome i` is what `future.result()` for tuple `i`
delivers to the collector, and `order` is the `as_completed` completion order.
The shared `query_id` counter starts at 1. -/
def generate_queries_parallel {E : Type} (dimension_tuples : List DimensionTuple)
    (taskOutcome : Nat → Except E (List String)) (order : List Nat) :
    List QueryWithDimensions :=
  collectRegular dimension_tuples taskOutcome order 1

/-! Ambiguous and adversarial generation -/

/-- Embedding of `generate_ambiguous_queries`: one structured call through
`call_llm` requesting `num` queries (the count only shapes the prompt, which
the provider parameter absorbs); any raised failure is caught and degrades to
the empty list. -/
def generate_ambiguous_queries {E : Type} (_num : Nat)
    (provider : Nat → Except E (List String)) : List String :=
  match (call_llm provider).result with
  | some (Except.ok queries) => queries
  | _ => []

/-- Embedding of `generate_adversarial_queries`; identical call shape to the
ambiguous generator, with its own prompt (absorbed by the provider). -/
def generate_adversarial_queries {E : Type} (_num : Nat)
    (provider : Nat → Except E (List String)) : List String :=
  match (call_llm provider).result with
  | some (Except.ok queries) => queries
  | _ => []

/-- The record-building comprehensions of `main` for the ambiguous and
adversarial categories: raw query `i` (0-based) becomes a record with id
`mkId (i + 1)`, no dimension tuple, and the category tag. -/
def mkPlainRecords (tag : String) (mkId : Nat → String) :
    List String → Nat → List QueryWithDimensions
  | [], _ => []
  | q :: rest, k =>
    { id := mkId k, query := q, dimension_tuple := none, query_type := tag }
      :: mkPlainRecords tag mkId rest (k + 1)

/-! Shuffle (`random.shuffle`) -/

/-- Exchange the elements at positions `i` and `j` (Python
`x[i], x[j] = x[j], x[i]`); out-of-range indices (never hit by the shuffle
loop) leave the list unchanged. -/
def listSwap {α : Type} (xs : List α) (i j : Nat) : List α :=
  match xs[i]?, xs[j]? with
  | some a, some b => (xs.set i b).set j a
  | _, _ => xs

/-- The Fisher–Yates loop of the CPython `random.shuffle`: for `i` from
`len - 1` down to `1`, draw `j` uniformly in `[0, i]` (here `rnd i % (i + 1)`
from the draw parameter) and swap positions `i` and `j`. -/
def shuffleFromIdx {α : Type} (rnd : Nat → Nat) : Nat → List α → List α
  | 0, xs => xs
  | i + 1, xs => shuffleFromIdx rnd i (listSwap xs (i + 1) (rnd (i + 1) % (i + 2)))

/-- Embedding of `random.shuffle xs` with random draws `rnd`. -/
def randomShuffle {α : Type} (rnd : Nat → Nat) (xs : List α) : List α :=
  shuffleFromIdx rnd (xs.length - 1) xs

/-! Persistence -/

/-- One CSV row as built by the dict comprehension in `save_queries_to_csv`:
columns id, query, dimension tuple serialized or null, category tag, kept
flag, note. -/
structure CsvRow where
  id : String
  query : String
  dimension_tuple_json : Option String
  query_type : String
  is_realistic_and_kept : Int
  notes_for_filtering : String
deriving DecidableEq, Repr

/-- The row a record is rendered to. -/
def rowOfQuery (q : QueryWithDimensions) : CsvRow :=
  { id := q.id, query := q.query,
    dimension_tuple_json := q.dimension_tuple.map DimensionTuple.model_dump_json,
    query_type := q.query_type,
    is_realistic_and_kept := q.is_realistic_and_kept,
    notes_for_filtering := q.notes_for_filtering }

/-- Embedding of `save_queries_to_csv`: with an empty record sequence it logs
and returns having created nothing (`none`); otherwise it writes exactly one
file holding one row per record (`some rows`). -/
def save_queries_to_csv (queries : List QueryWithDimensions) :
    Option (List CsvRow) :=
  if queries.isEmpty then none
  else some (queries.map rowOfQuery)

/-! Orchestrator (`main`) -/

/-- Configured counts of the source. -/
def NUM_AMBIGUOUS_QUERIES : Nat := 15

/-- Configured adversarial count of the source. -/
def NUM_ADVERSARIAL_QUERIES : Nat := 3

/-- Everything `main` observes from its environment in one run: the provider
behaviour of each structured call, the fan-out completion order, the shuffle
draws, and whether the API credential is present. -/
structure ProviderEnv where
  tuplesProvider : Nat → Except String (List DimensionTuple)
  regularProviders : Nat → Nat → Except String (List String)
  completionOrder : List Nat
  ambiguousProvider : Nat → Except String (List String)
  adversarialProvider : Nat → Except String (List String)
  shuffleRand : Nat → Nat
  apiKeyPresent : Bool

/-- Step 1 of `main`. -/
def tupleStage (env : ProviderEnv) : List DimensionTuple :=
  generate_dimension_tuples env.tuplesProvider

/-- Step 2 of `main`: the fan-out.  A worker task runs
`generate_queries_for_tuple`, which catches every exception, so the value each
`future.result()` delivers to the collector is always `ok`. -/
def regularStage (env : ProviderEnv) : List QueryWithDimensions :=
  generate_queries_parallel (E := String) (tupleStage env)
    (fun i => Except.ok (generate_queries_for_tuple (env.regularProviders i)))
    env.completionOrder

/-- Step 3 of `main`: ambiguous queries and their records. -/
def ambiguousStage (env : ProviderEnv) : List QueryWithDimensions :=
  mkPlainRecords "ambiguous" ambId
    (generate_ambiguous_queries NUM_AMBIGUOUS_QUERIES env.ambiguousProvider) 1

/-- Step 4 of `main`: adversarial queries and their records. -/
def adversarialStage (env : ProviderEnv) : List QueryWithDimensions :=
  mkPlainRecords "adversarial" advId
    (generate_adversarial_queries NUM_ADVERSARIAL_QUERIES env.adversarialProvider) 1

/-- The merge in `main`: `regular_queries + ambiguous_queries + adversarial_queries`. -/
def mergedRecords (env : ProviderEnv) : List QueryWithDimensions :=
  regularStage env ++ ambiguousStage env ++ adversarialStage env

/-- How a run of `main` ends. -/
inductive MainOutcome where
  | missingKey : MainOutcome
  | noTuples : MainOutcome
  | completed (records : List QueryWithDimensions) (csv : Option (List CsvRow)) : MainOutcome

/-- Embedding of `main`: abort on a missing credential; abort (without ever
reaching persistence) when the tuple stage comes back empty; otherwise run the
remaining stages, merge, shuffle, and persist the shuffled records. -/
def mainRun (env : ProviderEnv) : MainOutcome :=
  if env.apiKeyPresent = false then
    MainOutcome.missingKey
  else
    let dimension_tuples := tupleStage env
    if dimension_tuples.isEmpty then
      MainOutcome.noTuples
    else
      let all_queries := randomShuffle env.shuffleRand (mergedRecords env)
      MainOutcome.completed all_queries (save_queries_to_csv all_queries)

/-! Auxiliary definitions used by the verification: the per-task record count
seen by the collector, and concrete sample inputs on which closed instances of
the theorems are evaluated. -/

/-- Number of records a task contributes at the collection point: the length
of its query list when `future.result()` returns, zero when it raises. -/
def taskLen {E : Type} (taskOutcome : Nat → Except E (List String)) (i : Nat) : Nat :=
  match taskOutcome i with
  | Except.ok qs => qs.length
  | Except.error _ => 0

/-- A concrete dimension tuple, for closed instances. -/
def sampleTupleA : DimensionTuple :=
  ⟨"vegan", "general_pantry", "any_cuisine", "beginner_easy_low_effort",
   "quick_under_30_mins", "short_keywords_minimal_detail", "regular_meal",
   "no_specific_needs"⟩

/-- A second concrete dimension tuple, differing from `sampleTupleA` in one
field. -/
def sampleTupleB : DimensionTuple :=
  { sampleTupleA with DietaryNeedsOrRestrictions := "keto" }

/-- A constant two-query provider response, for closed instances. -/
def witnessQs : Nat → List String :=
  fun _ => ["need a vegan dinner fast", "easy keto meal"]

/-- Per-tuple providers where task 0 fails every attempt and task 1 succeeds
immediately, for closed instances of failure isolation. -/
def failPs : Nat → Nat → Except Unit (List String) :=
  fun i =>
    if i = 0 then (fun _ => Except.error ())
    else (fun _ => Except.ok ["pasta for two"])

/-- A concrete record; two copies of it carry the same id. -/
def dupRecord : QueryWithDimensions :=
  { id := "SYN001", query := "pasta pls", dimension_tuple := none,
    query_type := "regular" }

/-- An environment whose tuple provider fails on every attempt. -/
def emptyTupleEnv : ProviderEnv :=
  { tuplesProvider := fun _ => Except.error "provider down"
  , regularProviders := fun _ _ => Except.error "provider down"
  , completionOrder := []
  , ambiguousProvider := fun _ => Except.ok ["what should i eat"]
  , adversarialProvider := fun _ => Except.ok ["make something dangerous"]
  , shuffleRand := fun _ => 0
  , apiKeyPresent := true }

/-- An environment in which every provider call succeeds immediately. -/
def sampleEnv : ProviderEnv :=
  { tuplesProvider := fun _ => Except.ok [sampleTupleA, sampleTupleB]
  , regularProviders := fun _ _ => Except.ok ["how to cook rice"]
  , completionOrder := [0, 1]
  , ambiguousProvider := fun _ => Except.ok ["what should i eat"]
  , adversarialProvider := fun _ => Except.ok ["make something dangerous"]
  , shuffleRand := fun _ => 0
  , apiKeyPresent := true }

/-- The first regular record `sampleEnv` produces. -/
def sampleRegularRecord : QueryWithDimensions :=
  { id := synId 1, query := "how to cook rice",
    dimension_tuple := some sampleTupleA, query_type := "regular" }

/-! Theorems.  Each claim of the specification is settled by one theorem; the
lemmas in between are shared supporting facts about the embedded functions. -/

/-- C1: for every conversation and target schema (any provider behaviour),
`call_llm` attempts the provider call at most 3 times; a success on attempt 0,
1 or 2 returns the decoded value with exactly that many invocations and one
sleep unit per preceding failure, and three failures raise the third failure
unchanged after exactly 3 invocations and 2 unit-interval waits. -/
theorem call_llm_retry_contract {E A : Type} (provider : Nat → Except E A) :
    (call_llm provider).invocations ≤ 3 ∧
    (∀ a, provider 0 = Except.ok a →
      call_llm provider =
        { result := some (Except.ok a), invocations := 1, sleepUnits := 0 }) ∧
    (∀ e₀ a, provider 0 = Except.error e₀ → provider 1 = Except.ok a →
      call_llm provider =
        { result := some (Except.ok a), invocations := 2, sleepUnits := 1 }) ∧
    (∀ e₀ e₁ a, provider 0 = Except.error e₀ → provider 1 = Except.error e₁ →
      provider 2 = Except.ok a →
      call_llm provider =
        { result := some (Except.ok a), invocations := 3, sleepUnits := 2 }) ∧
    (∀ e₀ e₁ e₂, provider 0 = Except.error e₀ → provider 1 = Except.error e₁ →
      provider 2 = Except.error e₂ →
      call_llm provider =
        { result := some (Except.error e₂), invocations := 3, sleepUnits := 2 }) := by
  refine ⟨?_, ?_, ?_, ?_, ?_⟩
  · rcases h0 : provider 0 with e0 | a0 <;>
      rcases h1 : provider 1 with e1 | a1 <;>
        rcases h2 : provider 2 with e2 | a2 <;>
          simp [call_llm, callLLMGo, max_retries, h0, h1, h2]
  · intro a h0
    simp [call_llm, callLLMGo, max_retries, h0]
  · intro e₀ a h0 h1
    simp [call_llm, callLLMGo, max_retries, h0, h1]
  · intro e₀ e₁ a h0 h1 h2
    simp [call_llm, callLLMGo, max_retries, h0, h1, h2]
  · intro e₀ e₁ e₂ h0 h1 h2
    simp [call_llm, callLLMGo, max_retries, h0, h1, h2]

/-- Witness for C1: a provider failing twice then succeeding is invoked
exactly 3 times and its value is returned. -/
theorem call_llm_retry_contract_witness :
    call_llm (fun i => if i < 2 then Except.error () else Except.ok 42) =
      { result := some (Except.ok 42), invocations := 3, sleepUnits := 2 } :=
  (call_llm_retry_contract _).2.2.2.1 () () 42 rfl rfl rfl

/-- The spec-worded dedup keeps a sublist of its input. -/
theorem firstOccurrenceDedup_sublist :
    ∀ xs : List DimensionTuple, (firstOccurrenceDedup xs).Sublist xs
  | [] => by rw [firstOccurrenceDedup]
  | t :: rest => by
    rw [firstOccurrenceDedup]
    exact List.Sublist.cons₂ t
      ((firstOccurrenceDedup_sublist _).trans (List.filter_sublist _))
termination_by xs => xs.length
decreasing_by
  simp only [List.length_cons]
  exact Nat.lt_succ_of_le (List.length_filter_le _ _)

/-- No two entries the spec-worded dedup keeps share a serialization. -/
theorem firstOccurrenceDedup_pairwise :
    ∀ xs : List DimensionTuple,
      List.Pairwise (fun a b => a.model_dump_json ≠ b.model_dump_json)
        (firstOccurrenceDedup xs)
  | [] => by rw [firstOccurrenceDedup]; exact List.Pairwise.nil
  | t :: rest => by
    rw [firstOccurrenceDedup]
    refine List.Pairwise.cons (fun u hu => ?_) (firstOccurrenceDedup_pairwise _)
    have := (firstOccurrenceDedup_sublist _).subset hu
    have := List.of_mem_filter this
    simp only [decide_eq_true_eq] at this
    exact fun hne => this hne.symm
termination_by xs => xs.length
decreasing_by
  simp only [List.length_cons]
  exact Nat.lt_succ_of_le (List.length_filter_le _ _)

/-- Every input serialization is represented in the spec-worded dedup. -/
theorem firstOccurrenceDedup_covers :
    ∀ xs : List DimensionTuple, ∀ t ∈ xs, ∃ u ∈ firstOccurrenceDedup xs,
      u.model_dump_json = t.model_dump_json
  | [] => by intro t ht; cases ht
  | x :: rest => by
    intro t ht
    rw [firstOccurrenceDedup]
    by_cases hsame : t.model_dump_json = x.model_dump_json
    · exact ⟨x, List.mem_cons_self _ _, hsame.symm⟩
    · have hrest : t ∈ rest := by
        cases List.mem_cons.mp ht with
        | inl h => exact absurd (congrArg DimensionTuple.model_dump_json h) hsame
        | inr h => exact h
      have htf : t ∈ rest.filter (fun u => u.model_dump_json ≠ x.model_dump_json) := by
        refine List.mem_filter.mpr ⟨hrest, ?_⟩
        simpa using hsame
      obtain ⟨u, hu, hju⟩ := firstOccurrenceDedup_covers _ t htf
      exact ⟨u, List.mem_cons_of_mem _ hu, hju⟩
termination_by xs => xs.length
decreasing_by
  simp only [List.length_cons]
  exact Nat.lt_succ_of_le (List.length_filter_le _ _)

/-- The seen-set loop of the source equals the spec-worded dedup applied to
the entries whose serialization is not yet in the seen set. -/
theorem dedupTuples_eq_firstOccurrenceDedup_filter :
    ∀ (xs : List DimensionTuple) (seen : List String),
      dedupTuples xs seen =
        firstOccurrenceDedup (xs.filter (fun u => u.model_dump_json ∉ seen))
  | [], _ => by rw [List.filter_nil, firstOccurrenceDedup]; rfl
  | x :: rest, seen => by
    by_cases h : x.model_dump_json ∈ seen
    · have hx : (decide (x.model_dump_json ∉ seen)) = false := by simpa using h
      simp only [dedupTuples, if_pos h, List.filter_cons, hx, if_false]
      exact dedupTuples_eq_firstOccurrenceDedup_filter rest seen
    · have hx : (decide (x.model_dump_json ∉ seen)) = true := by simpa using h
      simp only [dedupTuples, if_neg h, List.filter_cons, hx, if_true]
      rw [firstOccurrenceDedup, List.filter_filter]
      have hcong :
          rest.filter (fun u =>
            decide (u.model_dump_json ≠ x.model_dump_json) &&
              decide (u.model_dump_json ∉ seen)) =
          rest.filter (fun u => u.model_dump_json ∉ x.model_dump_json :: seen) := by
        apply List.filter_congr
        intro u _
        by_cases h1 : u.model_dump_json = x.model_dump_json <;>
          by_cases h2 : u.model_dump_json ∈ seen <;>
            simp [h1, h2]
      rw [hcong, dedupTuples_eq_firstOccurrenceDedup_filter rest
        (x.model_dump_json :: seen)]

/-- C2: when the structured call returns the tuple sequence `tuples`,
`generate_dimension_tuples` returns exactly the subsequence keeping the first
occurrence of each canonical field-by-field serialization in first-seen order
(the spec-worded `firstOccurrenceDedup`); hence the result is a sublist of
`tuples` with pairwise distinct serializations covering every input
serialization, and no further limit is applied. -/
theorem generate_dimension_tuples_dedup {E : Type}
    (provider : Nat → Except E (List DimensionTuple))
    (tuples : List DimensionTuple)
    (hok : (call_llm provider).result = some (Except.ok tuples)) :
    generate_dimension_tuples provider = firstOccurrenceDedup tuples ∧
    (generate_dimension_tuples provider).Sublist tuples ∧
    List.Pairwise (fun a b => a.model_dump_json ≠ b.model_dump_json)
      (generate_dimension_tuples provider) ∧
    ∀ t ∈ tuples, ∃ u ∈ generate_dimension_tuples provider,
      u.model_dump_json = t.model_dump_json := by
  have hgen : generate_dimension_tuples provider = firstOccurrenceDedup tuples := by
    simp only [generate_dimension_tuples, hok]
    rw [dedupTuples_eq_firstOccurrenceDedup_filter]
    congr 1
    apply List.filter_eq_self.mpr
    intro u _
    simp
  refine ⟨hgen, ?_, ?_, ?_⟩
  · rw [hgen]; exact firstOccurrenceDedup_sublist tuples
  · rw [hgen]; exact firstOccurrenceDedup_pairwise tuples
  · rw [hgen]; exact firstOccurrenceDedup_covers tuples

/-- Witness for C2: a response repeating one tuple is deduplicated, keeping
the first occurrence. -/
theorem generate_dimension_tuples_dedup_witness :
    generate_dimension_tuples (E := Unit)
        (fun _ => Except.ok [sampleTupleA, sampleTupleA, sampleTupleB]) =
      firstOccurrenceDedup [sampleTupleA, sampleTupleA, sampleTupleB] ∧
    (generate_dimension_tuples (E := Unit)
        (fun _ => Except.ok [sampleTupleA, sampleTupleA, sampleTupleB])).Sublist
      [sampleTupleA, sampleTupleA, sampleTupleB] ∧
    List.Pairwise (fun a b => a.model_dump_json ≠ b.model_dump_json)
      (generate_dimension_tuples (E := Unit)
        (fun _ => Except.ok [sampleTupleA, sampleTupleA, sampleTupleB])) ∧
    ∀ t ∈ [sampleTupleA, sampleTupleA, sampleTupleB],
      ∃ u ∈ generate_dimension_tuples (E := Unit)
        (fun _ => Except.ok [sampleTupleA, sampleTupleA, sampleTupleB]),
        u.model_dump_json = t.model_dump_json :=
  generate_dimension_tuples_dedup _ _ rfl

/-- The fuel-based digit extractor agrees with `Nat.digits 10`. -/
theorem toDecimalAux_eq_digits :
    ∀ (fuel n : Nat), n ≤ fuel → toDecimalAux n fuel = Nat.digits 10 n
  | 0, n, hn => by
    interval_cases n
    simp [toDecimalAux]
  | fuel + 1, 0, _ => by simp [toDecimalAux]
  | fuel + 1, m + 1, hn => by
    rw [toDecimalAux, Nat.digits_def' (by norm_num : (1 : ℕ) < 10) (Nat.succ_pos m)]
    congr 1
    exact toDecimalAux_eq_digits fuel ((m + 1) / 10)
      (Nat.le_of_lt_succ (Nat.lt_of_lt_of_le (Nat.div_lt_self (Nat.succ_pos m) (by norm_num)) hn))

/-- For positive `n` the rendered digits are the reversed `Nat.digits`. -/
theorem decimalDigits_pos (n : Nat) (hn : n ≠ 0) :
    decimalDigits n = (Nat.digits 10 n).reverse := by
  rw [decimalDigits, if_neg hn, toDecimalAux_eq_digits n n le_rfl]

/-- Every rendered digit is below 10. -/
theorem decimalDigits_lt_ten (n : Nat) : ∀ d ∈ decimalDigits n, d < 10 := by
  intro d hd
  by_cases hn : n = 0
  · subst hn
    simp [decimalDigits] at hd
    omega
  · rw [decimalDigits_pos n hn, List.mem_reverse] at hd
    exact Nat.digits_lt_base (by norm_num) hd

/-- Padding only adds zeros, so padded digits stay below 10. -/
theorem padLeft3_lt_ten (n : Nat) : ∀ d ∈ padLeft3 (decimalDigits n), d < 10 := by
  intro d hd
  rcases List.mem_append.mp hd with h | h
  · have := List.eq_of_mem_replicate h
    omega
  · exact decimalDigits_lt_ten n d h

/-- Dropping leading zeros removes any zero padding first. -/
theorem dropWhile_zero_replicate (k : Nat) (l : List Nat) :
    (List.replicate k 0 ++ l).dropWhile (· == 0) = l.dropWhile (· == 0) := by
  induction k with
  | zero => simp
  | succ k ih => simp [List.replicate_succ]

/-- Stripping the zero padding and reading the digits back recovers `n`:
left inverse of the width-3 zero-padded rendering. -/
theorem pad3_decode (n : Nat) :
    Nat.ofDigits 10
      (((padLeft3 (decimalDigits n)).dropWhile (· == 0)).reverse) = n := by
  by_cases hn : n = 0
  · subst hn
    simp [padLeft3, decimalDigits, List.dropWhile]
  · rw [padLeft3, dropWhile_zero_replicate]
    rw [decimalDigits_pos n hn]
    have hne : Nat.digits 10 n ≠ [] := Nat.digits_ne_nil_iff_ne_zero.mpr hn
    have hrevne : (Nat.digits 10 n).reverse ≠ [] := by
      simpa using hne
    obtain ⟨a, t, hat⟩ := List.exists_cons_of_ne_nil hrevne
    have hhead : (Nat.digits 10 n).reverse.head hrevne = a := by
      simp [hat]
    have hlast : a ≠ 0 := by
      rw [← hhead, List.head_reverse]
      exact Nat.getLast_digit_ne_zero 10 hn
    rw [hat, List.dropWhile_cons_of_neg (by simpa using hlast), ← hat,
      List.reverse_reverse, Nat.ofDigits_digits]

/-- The ASCII code of a digit character. -/
theorem decimalDigitChar_toNat (d : Nat) (hd : d < 10) :
    (decimalDigitChar d).toNat = 48 + d := by
  interval_cases d <;> decide

/-- Digit characters distinguish digit lists whose entries are below 10. -/
theorem map_decimalDigitChar_inj :
    ∀ (l₁ l₂ : List Nat), (∀ d ∈ l₁, d < 10) → (∀ d ∈ l₂, d < 10) →
      l₁.map decimalDigitChar = l₂.map decimalDigitChar → l₁ = l₂
  | [], [], _, _, _ => rfl
  | [], _ :: _, _, _, h => by simp at h
  | _ :: _, [], _, _, h => by simp at h
  | a :: l₁, b :: l₂, h₁, h₂, h => by
    simp only [List.map_cons, List.cons.injEq] at h
    have ha := h₁ a (List.mem_cons_self _ _)
    have hb := h₂ b (List.mem_cons_self _ _)
    have hab : a = b := by
      have := congrArg Char.toNat h.1
      rw [decimalDigitChar_toNat a ha, decimalDigitChar_toNat b hb] at this
      omega
    rw [hab, map_decimalDigitChar_inj l₁ l₂
      (fun d hd => h₁ d (List.mem_cons_of_mem _ hd))
      (fun d hd => h₂ d (List.mem_cons_of_mem _ hd)) h.2]

/-- Distinct numbers render to distinct zero-padded strings. -/
theorem pad3_injective : Function.Injective pad3 := by
  intro m n h
  have hdata : ((padLeft3 (decimalDigits m)).map decimalDigitChar) =
      ((padLeft3 (decimalDigits n)).map decimalDigitChar) := by
    have := congrArg String.data h
    simpa [pad3] using this
  have hpad : padLeft3 (decimalDigits m) = padLeft3 (decimalDigits n) :=
    map_decimalDigitChar_inj _ _ (padLeft3_lt_ten m) (padLeft3_lt_ten n) hdata
  have := congrArg
    (fun l => Nat.ofDigits 10 ((l.dropWhile (· == 0)).reverse)) hpad
  simpa [pad3_decode] using this

/-- Prepending a fixed category tag preserves id distinctness. -/
theorem tagged_pad3_injective (tag : String) :
    Function.Injective (fun n => tag ++ pad3 n) := by
  intro m n h
  apply pad3_injective
  have hd := congrArg String.data h
  simp only [String.data_append] at hd
  exact String.ext (List.append_cancel_left hd)

/-- One task contributes one record per query string. -/
theorem mkRegularRecords_length (dt : DimensionTuple) (qs : List String) (k : Nat) :
    (mkRegularRecords dt qs k).length = qs.length := by
  induction qs generalizing k with
  | nil => rfl
  | cons q rest ih => simp [mkRegularRecords, ih]

/-- The ids one task assembles are consecutive counter values. -/
theorem mkRegularRecords_ids (dt : DimensionTuple) (qs : List String) (k : Nat) :
    (mkRegularRecords dt qs k).map (fun r => r.id) =
      (List.range qs.length).map (fun j => synId (k + j)) := by
  induction qs generalizing k with
  | nil => rfl
  | cons q rest ih =>
    simp only [mkRegularRecords, List.map_cons, List.length_cons,
      List.range_succ_eq_map, List.map_map, ih, List.cons.injEq, Nat.add_zero,
      true_and]
    apply List.map_congr_left
    intro j _
    simp only [Function.comp_apply]
    congr 1
    omega

/-- Shape of every record one task assembles. -/
theorem mkRegularRecords_mem (dt : DimensionTuple) (qs : List String) (k : Nat)
    (r : QueryWithDimensions) (hr : r ∈ mkRegularRecords dt qs k) :
    r.query_type = "regular" ∧ r.dimension_tuple = some dt ∧ r.query ∈ qs ∧
    r.is_realistic_and_kept = 1 ∧ r.notes_for_filtering = "" ∧
    ∃ m, r.id = synId m := by
  induction qs generalizing k with
  | nil => cases hr
  | cons q rest ih =>
    rcases List.mem_cons.mp hr with rfl | h
    · exact ⟨rfl, rfl, List.mem_cons_self _ _, rfl, rfl, k, rfl⟩
    · obtain ⟨h1, h2, h3, h4, h5, m, h6⟩ := ih (k + 1) h
      exact ⟨h1, h2, List.mem_cons_of_mem _ h3, h4, h5, m, h6⟩

/-- The collector produces one record per query of each drained task. -/
theorem collectRegular_length {E : Type} (dts : List DimensionTuple)
    (tO : Nat → Except E (List String)) (order : List Nat) (k : Nat) :
    (collectRegular dts tO order k).length = (order.map (taskLen tO)).sum := by
  induction order generalizing k with
  | nil => rfl
  | cons i rest ih =>
    cases h : tO i with
    | error e => simp [collectRegular, h, ih, taskLen]
    | ok qs => simp [collectRegular, h, ih, taskLen, mkRegularRecords_length]

/-- The ids the collector allocates are the consecutive counter values from
`k`, whatever the completion order and task outcomes: id allocation happens
only in the single collecting loop. -/
theorem collectRegular_ids {E : Type} (dts : List DimensionTuple)
    (tO : Nat → Except E (List String)) (order : List Nat) (k : Nat) :
    (collectRegular dts tO order k).map (fun r => r.id) =
      (List.range ((order.map (taskLen tO)).sum)).map (fun j => synId (k + j)) := by
  induction order generalizing k with
  | nil => rfl
  | cons i rest ih =>
    cases h : tO i with
    | error e =>
      simp only [collectRegular, h, List.map_cons, List.sum_cons, taskLen]
      rw [ih]
      simp [taskLen, h]
    | ok qs =>
      simp only [collectRegular, h, List.map_cons, List.sum_cons, List.map_append,
        taskLen]
      rw [mkRegularRecords_ids, ih, List.range_add, List.map_append, List.map_map]
      congr 1
      apply List.map_congr_left
      intro j _
      simp only [Function.comp_apply]
      congr 1
      omega

/-- Every collected record is a regular record of one drained task, tagged
with the source tuple of that task. -/
theorem collectRegular_mem {E : Type} (dts : List DimensionTuple)
    (tO : Nat → Except E (List String)) (order : List Nat) (k : Nat)
    (r : QueryWithDimensions) (hr : r ∈ collectRegular dts tO order k) :
    r.query_type = "regular" ∧ r.is_realistic_and_kept = 1 ∧
    r.notes_for_filtering = "" ∧ (∃ m, r.id = synId m) ∧
    ∃ i ∈ order, ∃ qs, tO i = Except.ok qs ∧
      r.dimension_tuple = some (dts.getD i default) ∧ r.query ∈ qs := by
  induction order generalizing k with
  | nil => cases hr
  | cons i rest ih =>
    rw [collectRegular] at hr
    cases h : tO i with
    | error e =>
      rw [h] at hr
      obtain ⟨h1, h2, h3, h4, i', hi', rest'⟩ := ih (k := k) hr
      exact ⟨h1, h2, h3, h4, i', List.mem_cons_of_mem _ hi', rest'⟩
    | ok qs =>
      rw [h] at hr
      rcases List.mem_append.mp hr with hmk | hcol
      · obtain ⟨h1, h2, h3, h4, h5, m, h6⟩ := mkRegularRecords_mem _ _ _ _ hmk
        exact ⟨h1, h4, h5, ⟨m, h6⟩, i, List.mem_cons_self _ _, qs, h, h2, h3⟩
      · obtain ⟨h1, h2, h3, h4, i', hi', rest'⟩ := ih (k := k + qs.length) hcol
        exact ⟨h1, h2, h3, h4, i', List.mem_cons_of_mem _ hi', rest'⟩

/-- A task that contributes nothing (it raised, or returned no queries) can be
removed from the completion order without changing what is collected: sibling
results are collected unchanged. -/
theorem collectRegular_skip_failed {E : Type} (dts : List DimensionTuple)
    (tO : Nat → Except E (List String)) (i₀ : Nat)
    (hfail : tO i₀ = Except.ok [] ∨ ∃ e, tO i₀ = Except.error e) :
    ∀ (order : List Nat) (k : Nat),
      collectRegular dts tO order k =
        collectRegular dts tO (order.filter (fun i => i ≠ i₀)) k := by
  intro order
  induction order with
  | nil => intro k; rfl
  | cons i rest ih =>
    intro k
    by_cases hi : i = i₀
    · subst hi
      have hfilter : (i :: rest).filter (fun j => j ≠ i) =
          rest.filter (fun j => j ≠ i) := by
        simp [List.filter_cons]
      rw [hfilter]
      rcases hfail with hok | ⟨e, herr⟩
      · rw [collectRegular, hok]
        simpa [mkRegularRecords] using ih k
      · rw [collectRegular, herr]
        exact ih k
    · have hfilter : (i :: rest).filter (fun j => j ≠ i₀) =
          i :: rest.filter (fun j => j ≠ i₀) := by
        simp [List.filter_cons, hi]
      rw [hfilter]
      cases h : tO i with
      | error e =>
        simp only [collectRegular, h]
        exact ih k
      | ok qs =>
        simp only [collectRegular, h]
        rw [ih (k + qs.length)]

/-- C3: if every task returns exactly K query strings and the completion order
is a permutation of the T task indices, `generate_queries_parallel` returns
exactly T×K records, their ids are the consecutive counter values SYN001…
independent of completion order (sequence-id allocation happens only in the
single collecting loop), and each record is tagged "regular" with a non-null
reference to the tuple that produced it. -/
theorem generate_queries_parallel_complete {E : Type}
    (dimension_tuples : List DimensionTuple) (K : Nat) (qs : Nat → List String)
    (taskOutcome : Nat → Except E (List String)) (order : List Nat)
    (horder : order.Perm (List.range dimension_tuples.length))
    (hok : ∀ i < dimension_tuples.length, taskOutcome i = Except.ok (qs i))
    (hK : ∀ i < dimension_tuples.length, (qs i).length = K) :
    (generate_queries_parallel dimension_tuples taskOutcome order).length =
      dimension_tuples.length * K ∧
    (generate_queries_parallel dimension_tuples taskOutcome order).map
        (fun r => r.id) =
      (List.range (dimension_tuples.length * K)).map (fun j => synId (1 + j)) ∧
    ∀ r ∈ generate_queries_parallel dimension_tuples taskOutcome order,
      r.query_type = "regular" ∧
      ∃ i, i < dimension_tuples.length ∧
        r.dimension_tuple = some (dimension_tuples.getD i default) ∧
        r.query ∈ qs i := by
  have hmem : ∀ i ∈ order, i < dimension_tuples.length := by
    intro i hi
    exact List.mem_range.mp (horder.mem_iff.mp hi)
  have hsum : (order.map (taskLen taskOutcome)).sum =
      dimension_tuples.length * K := by
    have hconst : order.map (taskLen taskOutcome) = order.map (fun _ => K) := by
      apply List.map_congr_left
      intro i hi
      have := hmem i hi
      simp [taskLen, hok i this, hK i this]
    rw [hconst, List.map_const', List.sum_replicate, smul_eq_mul,
      horder.length_eq, List.length_range, Nat.mul_comm]
  refine ⟨?_, ?_, ?_⟩
  · rw [generate_queries_parallel, collectRegular_length, hsum]
  · rw [generate_queries_parallel, collectRegular_ids, hsum]
  · intro r hr
    obtain ⟨h1, _, _, _, i, hi, qs', hq', hdt, hquery⟩ :=
      collectRegular_mem _ _ _ _ r hr
    have hlt := hmem i hi
    refine ⟨h1, i, hlt, hdt, ?_⟩
    have : qs' = qs i := by
      have := hok i hlt
      rw [this] at hq'
      exact (Except.ok.inj hq').symm
    exact this ▸ hquery

/-- Witness for C3: two tuples, two queries each, drained out of submission
order, give 4 records with ids SYN001…SYN004. -/
theorem generate_queries_parallel_complete_witness :
    (generate_queries_parallel (E := Unit) [sampleTupleA, sampleTupleB]
        (fun i => Except.ok (witnessQs i)) [1, 0]).length =
      [sampleTupleA, sampleTupleB].length * 2 ∧
    (generate_queries_parallel (E := Unit) [sampleTupleA, sampleTupleB]
        (fun i => Except.ok (witnessQs i)) [1, 0]).map (fun r => r.id) =
      (List.range ([sampleTupleA, sampleTupleB].length * 2)).map
        (fun j => synId (1 + j)) ∧
    ∀ r ∈ generate_queries_parallel (E := Unit) [sampleTupleA, sampleTupleB]
        (fun i => Except.ok (witnessQs i)) [1, 0],
      r.query_type = "regular" ∧
      ∃ i, i < [sampleTupleA, sampleTupleB].length ∧
        r.dimension_tuple = some ([sampleTupleA, sampleTupleB].getD i default) ∧
        r.query ∈ witnessQs i :=
  generate_queries_parallel_complete (E := Unit) [sampleTupleA, sampleTupleB] 2
    witnessQs (fun i => Except.ok (witnessQs i)) [1, 0] (by decide)
    (fun _ _ => rfl) (fun _ _ => rfl)

/-- A worker whose structured call fails on all three attempts catches the
raised failure and contributes the empty query list. -/
theorem generate_queries_for_tuple_of_fail {E : Type}
    (p : Nat → Except E (List String))
    (hfail : ∀ a < max_retries, ∃ e, p a = Except.error e) :
    generate_queries_for_tuple p = [] := by
  obtain ⟨e0, h0⟩ := hfail 0 (by norm_num [max_retries])
  obtain ⟨e1, h1⟩ := hfail 1 (by norm_num [max_retries])
  obtain ⟨e2, h2⟩ := hfail 2 (by norm_num [max_retries])
  simp [generate_queries_for_tuple, call_llm, callLLMGo, max_retries, h0, h1, h2]

/-- A worker whose structured call succeeds immediately returns its queries. -/
theorem generate_queries_for_tuple_of_ok {E : Type}
    (p : Nat → Except E (List String)) (qs : List String)
    (h0 : p 0 = Except.ok qs) :
    generate_queries_for_tuple p = qs := by
  simp [generate_queries_for_tuple, call_llm, callLLMGo, max_retries, h0]

/-- C7: in the regular fan-out a failing task is isolated.  With two tuples
where the task for tuple 0 fails (its provider errors on every attempt) and
the task for tuple 1 returns K queries, the stage result is unchanged if the
failed task is removed from the completion order, has exactly K records, and
every record carries the surviving tuple and one of its queries — the
pipeline does not abort. -/
theorem regular_stage_isolates_failure {E : Type} (t₀ t₁ : DimensionTuple)
    (ps : Nat → Nat → Except E (List String)) (qs : List String) (K : Nat)
    (order : List Nat)
    (horder : order.Perm (List.range 2))
    (hfail : ∀ a < max_retries, ∃ e, ps 0 a = Except.error e)
    (hok : ps 1 0 = Except.ok qs) (hK : qs.length = K) :
    generate_queries_parallel (E := E) [t₀, t₁]
        (fun i => Except.ok (generate_queries_for_tuple (ps i))) order =
      generate_queries_parallel (E := E) [t₀, t₁]
        (fun i => Except.ok (generate_queries_for_tuple (ps i)))
        (order.filter (fun i => i ≠ 0)) ∧
    (generate_queries_parallel (E := E) [t₀, t₁]
        (fun i => Except.ok (generate_queries_for_tuple (ps i))) order).length =
      K ∧
    ∀ r ∈ generate_queries_parallel (E := E) [t₀, t₁]
        (fun i => Except.ok (generate_queries_for_tuple (ps i))) order,
      r.query_type = "regular" ∧ r.dimension_tuple = some t₁ ∧ r.query ∈ qs := by
  have h0 : generate_queries_for_tuple (ps 0) = [] :=
    generate_queries_for_tuple_of_fail (ps 0) hfail
  have h1 : generate_queries_for_tuple (ps 1) = qs :=
    generate_queries_for_tuple_of_ok (ps 1) qs hok
  have hmem2 : ∀ i ∈ order, i < 2 := by
    intro i hi
    exact List.mem_range.mp (horder.mem_iff.mp hi)
  refine ⟨?_, ?_, ?_⟩
  · exact collectRegular_skip_failed [t₀, t₁] _ 0 (Or.inl (by rw [h0])) order 1
  · rw [generate_queries_parallel, collectRegular_length]
    have hperm : (order.map
        (taskLen (E := E)
          (fun i => Except.ok (generate_queries_for_tuple (ps i))))).sum =
        ((List.range 2).map
          (taskLen (E := E)
            (fun i => Except.ok (generate_queries_for_tuple (ps i))))).sum :=
      (horder.map _).sum_eq
    rw [hperm]
    simp [List.range_succ, taskLen, h0, h1, hK]
  · intro r hr
    obtain ⟨ht, _, _, _, i, hi, qs', hq', hdt, hquery⟩ :=
      collectRegular_mem _ _ _ _ r hr
    have hi2 : i = 0 ∨ i = 1 := by
      have := hmem2 i hi
      omega
    rcases hi2 with rfl | rfl
    · rw [Except.ok.injEq] at hq'
      rw [← hq', h0] at hquery
      cases hquery
    · rw [Except.ok.injEq] at hq'
      rw [← hq', h1] at hquery
      exact ⟨ht, hdt, hquery⟩

/-- Witness for C7: with `failPs`, task 0 fails every attempt and task 1
yields one query; the stage returns exactly that one record. -/
theorem regular_stage_isolates_failure_witness :
    generate_queries_parallel (E := Unit) [sampleTupleA, sampleTupleB]
        (fun i => Except.ok (generate_queries_for_tuple (failPs i))) [0, 1] =
      generate_queries_parallel (E := Unit) [sampleTupleA, sampleTupleB]
        (fun i => Except.ok (generate_queries_for_tuple (failPs i)))
        ([0, 1].filter (fun i => i ≠ 0)) ∧
    (generate_queries_parallel (E := Unit) [sampleTupleA, sampleTupleB]
        (fun i => Except.ok (generate_queries_for_tuple (failPs i))) [0, 1]).length =
      1 ∧
    ∀ r ∈ generate_queries_parallel (E := Unit) [sampleTupleA, sampleTupleB]
        (fun i => Except.ok (generate_queries_for_tuple (failPs i))) [0, 1],
      r.query_type = "regular" ∧ r.dimension_tuple = some sampleTupleB ∧
        r.query ∈ ["pasta for two"] :=
  regular_stage_isolates_failure sampleTupleA sampleTupleB failPs
    ["pasta for two"] 1 [0, 1] (by decide) (fun a _ => ⟨(), rfl⟩) rfl rfl

/-- Ambiguous and adversarial ids are consecutive counter values. -/
theorem mkPlainRecords_ids (tag : String) (mkId : Nat → String)
    (l : List String) (k : Nat) :
    (mkPlainRecords tag mkId l k).map (fun r => r.id) =
      (List.range l.length).map (fun j => mkId (k + j)) := by
  induction l generalizing k with
  | nil => rfl
  | cons q rest ih =>
    simp only [mkPlainRecords, List.map_cons, List.length_cons,
      List.range_succ_eq_map, List.map_map, ih, List.cons.injEq, Nat.add_zero,
      true_and]
    apply List.map_congr_left
    intro j _
    simp only [Function.comp_apply]
    congr 1
    omega

/-- Shape of every ambiguous or adversarial record. -/
theorem mkPlainRecords_mem (tag : String) (mkId : Nat → String)
    (l : List String) (k : Nat) (r : QueryWithDimensions)
    (hr : r ∈ mkPlainRecords tag mkId l k) :
    r.query_type = tag ∧ r.dimension_tuple = none ∧ r.query ∈ l ∧
    r.is_realistic_and_kept = 1 ∧ r.notes_for_filtering = "" ∧
    ∃ m, r.id = mkId m := by
  induction l generalizing k with
  | nil => cases hr
  | cons q rest ih =>
    rcases List.mem_cons.mp hr with rfl | h
    · exact ⟨rfl, rfl, List.mem_cons_self _ _, rfl, rfl, k, rfl⟩
    · obtain ⟨h1, h2, h3, h4, h5, m, h6⟩ := ih (k + 1) h
      exact ⟨h1, h2, List.mem_cons_of_mem _ h3, h4, h5, m, h6⟩

/-- Distinct counter values give distinct SYN ids. -/
theorem synId_shift_injective : Function.Injective (fun j : Nat => synId (1 + j)) := by
  intro a b h
  simp only [synId] at h
  have := tagged_pad3_injective "SYN" h
  omega

/-- Distinct counter values give distinct AMB ids. -/
theorem ambId_shift_injective : Function.Injective (fun j : Nat => ambId (1 + j)) := by
  intro a b h
  simp only [ambId] at h
  have := tagged_pad3_injective "AMB" h
  omega

/-- Distinct counter values give distinct ADV ids. -/
theorem advId_shift_injective : Function.Injective (fun j : Nat => advId (1 + j)) := by
  intro a b h
  simp only [advId] at h
  have := tagged_pad3_injective "ADV" h
  omega

/-- C8: every record the pipeline creates satisfies the record invariant —
its category tag is regular, ambiguous or adversarial; its dimension tuple is
present exactly when the tag is regular; its kept flag is the default truthy
value 1 and its note the default empty string, untouched by generation; its id
is the category prefix followed by a zero-padded sequence number; and within
each category prefix the ids are pairwise distinct. -/
theorem pipeline_record_invariant (env : ProviderEnv) :
    (∀ r ∈ mergedRecords env,
      (r.query_type = "regular" ∨ r.query_type = "ambiguous" ∨
        r.query_type = "adversarial") ∧
      (r.dimension_tuple.isSome = true ↔ r.query_type = "regular") ∧
      r.is_realistic_and_kept = 1 ∧ r.notes_for_filtering = "" ∧
      (r.query_type = "regular" → ∃ m, r.id = synId m) ∧
      (r.query_type = "ambiguous" → ∃ m, r.id = ambId m) ∧
      (r.query_type = "adversarial" → ∃ m, r.id = advId m)) ∧
    ((regularStage env).map (fun r => r.id)).Nodup ∧
    ((ambiguousStage env).map (fun r => r.id)).Nodup ∧
    ((adversarialStage env).map (fun r => r.id)).Nodup := by
  refine ⟨?_, ?_, ?_, ?_⟩
  · intro r hr
    simp only [mergedRecords, List.mem_append] at hr
    rcases hr with (hreg | hamb) | hadv
    · obtain ⟨h1, h2, h3, ⟨m, h4⟩, _, _, _, _, hdt, _⟩ :=
        collectRegular_mem _ _ _ _ r hreg
      refine ⟨Or.inl h1, ?_, h2, h3, fun _ => ⟨m, h4⟩, ?_, ?_⟩
      · rw [hdt, h1]
        simp
      · intro hcon
        rw [h1] at hcon
        exact absurd hcon (by decide)
      · intro hcon
        rw [h1] at hcon
        exact absurd hcon (by decide)
    · obtain ⟨h1, h2, _, h4, h5, m, h6⟩ := mkPlainRecords_mem _ _ _ _ r hamb
      refine ⟨Or.inr (Or.inl h1), ?_, h4, h5, ?_, fun _ => ⟨m, h6⟩, ?_⟩
      · rw [h2, h1]
        decide
      · intro hcon
        rw [h1] at hcon
        exact absurd hcon (by decide)
      · intro hcon
        rw [h1] at hcon
        exact absurd hcon (by decide)
    · obtain ⟨h1, h2, _, h4, h5, m, h6⟩ := mkPlainRecords_mem _ _ _ _ r hadv
      refine ⟨Or.inr (Or.inr h1), ?_, h4, h5, ?_, ?_, fun _ => ⟨m, h6⟩⟩
      · rw [h2, h1]
        decide
      · intro hcon
        rw [h1] at hcon
        exact absurd hcon (by decide)
      · intro hcon
        rw [h1] at hcon
        exact absurd hcon (by decide)
  · show ((collectRegular _ _ _ 1).map (fun r => r.id)).Nodup
    rw [collectRegular_ids]
    exact (List.nodup_range _).map synId_shift_injective
  · show ((mkPlainRecords _ _ _ 1).map (fun r => r.id)).Nodup
    rw [mkPlainRecords_ids]
    exact (List.nodup_range _).map ambId_shift_injective
  · show ((mkPlainRecords _ _ _ 1).map (fun r => r.id)).Nodup
    rw [mkPlainRecords_ids]
    exact (List.nodup_range _).map advId_shift_injective

/-- Witness for C8: in `sampleEnv` the first regular record is in the merged
output and satisfies the invariant, and each category has distinct ids. -/
theorem pipeline_record_invariant_witness :
    sampleRegularRecord ∈ mergedRecords sampleEnv ∧
    ((sampleRegularRecord.query_type = "regular" ∨
        sampleRegularRecord.query_type = "ambiguous" ∨
        sampleRegularRecord.query_type = "adversarial") ∧
      (sampleRegularRecord.dimension_tuple.isSome = true ↔
        sampleRegularRecord.query_type = "regular") ∧
      sampleRegularRecord.is_realistic_and_kept = 1 ∧
      sampleRegularRecord.notes_for_filtering = "" ∧
      (sampleRegularRecord.query_type = "regular" →
        ∃ m, sampleRegularRecord.id = synId m) ∧
      (sampleRegularRecord.query_type = "ambiguous" →
        ∃ m, sampleRegularRecord.id = ambId m) ∧
      (sampleRegularRecord.query_type = "adversarial" →
        ∃ m, sampleRegularRecord.id = advId m)) ∧
    ((regularStage sampleEnv).map (fun r => r.id)).Nodup ∧
    ((ambiguousStage sampleEnv).map (fun r => r.id)).Nodup ∧
    ((adversarialStage sampleEnv).map (fun r => r.id)).Nodup :=
  ⟨by decide,
   (pipeline_record_invariant sampleEnv).1 sampleRegularRecord (by decide),
   (pipeline_record_invariant sampleEnv).2.1,
   (pipeline_record_invariant sampleEnv).2.2.1,
   (pipeline_record_invariant sampleEnv).2.2.2⟩

/-- One swap of two positions is a permutation. -/
theorem listSwap_perm {α : Type} [DecidableEq α] (xs : List α) (i j : Nat) :
    (listSwap xs i j).Perm xs := by
  unfold listSwap
  cases hi : xs[i]? with
  | none => exact List.Perm.refl xs
  | some a =>
    cases hj : xs[j]? with
    | none => exact List.Perm.refl xs
    | some b =>
      obtain ⟨hil, hia⟩ := List.getElem?_eq_some_iff.mp hi
      obtain ⟨hjl, hjb⟩ := List.getElem?_eq_some_iff.mp hj
      show ((xs.set i b).set j a).Perm xs
      have hamem : a ∈ xs := hia ▸ List.getElem_mem hil
      have hbmem : b ∈ xs := hjb ▸ List.getElem_mem hjl
      by_cases hij : i = j
      · subst hij
        have hab : a = b := by rw [← hia, ← hjb]
        subst hab
        rw [List.set_set, List.perm_iff_count]
        intro c
        rw [List.count_set a c xs i hil, hia]
        simp only [beq_iff_eq]
        by_cases hac : a = c
        · have hpos : 0 < xs.count c := List.count_pos_iff.mpr (hac ▸ hamem)
          rw [if_pos hac]
          omega
        · rw [if_neg hac]
          omega
      · rw [List.perm_iff_count]
        intro c
        have hjl' : j < (xs.set i b).length := by simpa using hjl
        rw [List.count_set a c (xs.set i b) j hjl',
          List.count_set b c xs i hil,
          List.getElem_set_ne hij, hia, hjb]
        simp only [beq_iff_eq]
        by_cases hac : a = c <;> by_cases hbc : b = c
        · have hpos : 0 < xs.count c := List.count_pos_iff.mpr (hac ▸ hamem)
          rw [if_pos hac, if_pos hbc]
          omega
        · have hpos : 0 < xs.count c := List.count_pos_iff.mpr (hac ▸ hamem)
          rw [if_pos hac, if_neg hbc]
          omega
        · rw [if_neg hac, if_pos hbc]
          omega
        · rw [if_neg hac, if_neg hbc]
          omega

/-- The Fisher–Yates loop from any index is a permutation. -/
theorem shuffleFromIdx_perm {α : Type} [DecidableEq α] (rnd : Nat → Nat) :
    ∀ (n : Nat) (xs : List α), (shuffleFromIdx rnd n xs).Perm xs := by
  intro n
  induction n with
  | zero => intro xs; exact List.Perm.refl xs
  | succ n ih =>
    intro xs
    rw [shuffleFromIdx]
    exact (ih _).trans (listSwap_perm xs (n + 1) (rnd (n + 1) % (n + 2)))

/-- `random.shuffle` only permutes its list, for any random draws. -/
theorem randomShuffle_perm {α : Type} [DecidableEq α] (rnd : Nat → Nat)
    (xs : List α) : (randomShuffle rnd xs).Perm xs :=
  shuffleFromIdx_perm rnd (xs.length - 1) xs

/-- C4: merging the regular, ambiguous and adversarial sequences and
shuffling yields a permutation of their concatenation, whatever the random
draws; in particular the multiset of ids is preserved, only the order
changes. -/
theorem merge_shuffle_preserves_multiset (rnd : Nat → Nat)
    (regular_queries ambiguous_queries adversarial_queries :
      List QueryWithDimensions) :
    (randomShuffle rnd
        (regular_queries ++ ambiguous_queries ++ adversarial_queries)).Perm
      (regular_queries ++ ambiguous_queries ++ adversarial_queries) ∧
    ((randomShuffle rnd
        (regular_queries ++ ambiguous_queries ++ adversarial_queries)).map
          (fun r => r.id)).Perm
      ((regular_queries ++ ambiguous_queries ++ adversarial_queries).map
        (fun r => r.id)) :=
  ⟨randomShuffle_perm rnd _, (randomShuffle_perm rnd _).map _⟩

/-- Counterexample for C5 as stated: persistence does not deduplicate ids, so
a record sequence that repeats an id produces a file whose id set has a
duplicate. -/
theorem save_queries_duplicate_id_counterexample :
    save_queries_to_csv [dupRecord, dupRecord] =
      some [rowOfQuery dupRecord, rowOfQuery dupRecord] ∧
    (([rowOfQuery dupRecord, rowOfQuery dupRecord].map (fun row => row.id)).Nodup
      ↔ False) := by
  refine ⟨rfl, ?_⟩
  simp [rowOfQuery, dupRecord]

/-- C5 (amended): persistence given zero records creates no file; given N>0
records it creates exactly one file with exactly N rows, one per record with
the columns id, query, dimension-tuple string or null, category, kept flag
and note; the file ids are exactly the record ids in order, so the id set has
no duplicates whenever the input ids are distinct; a zero-row artifact is
never produced. -/
theorem save_queries_to_csv_contract (queries : List QueryWithDimensions) :
    (queries = [] → save_queries_to_csv queries = none) ∧
    (queries ≠ [] →
      save_queries_to_csv queries = some (queries.map rowOfQuery) ∧
      (queries.map rowOfQuery).length = queries.length ∧
      (queries.map rowOfQuery).map (fun row => row.id) =
        queries.map (fun q => q.id) ∧
      ((queries.map (fun q => q.id)).Nodup →
        ((queries.map rowOfQuery).map (fun row => row.id)).Nodup)) := by
  constructor
  · intro h
    subst h
    rfl
  · intro h
    have hne : queries.isEmpty = false := by
      cases queries with
      | nil => exact absurd rfl h
      | cons q rest => rfl
    have hids : (queries.map rowOfQuery).map (fun row => row.id) =
        queries.map (fun q => q.id) := by
      rw [List.map_map]
      rfl
    refine ⟨?_, by rw [List.length_map], hids, fun hnd => hids ▸ hnd⟩
    rw [save_queries_to_csv, hne]
    rfl

/-- Witness for C5: a one-record sequence produces a one-row file with that
record id. -/
theorem save_queries_to_csv_contract_witness :
    ([dupRecord] = [] → save_queries_to_csv [dupRecord] = none) ∧
    ([dupRecord] ≠ [] →
      save_queries_to_csv [dupRecord] = some ([dupRecord].map rowOfQuery) ∧
      ([dupRecord].map rowOfQuery).length = [dupRecord].length ∧
      ([dupRecord].map rowOfQuery).map (fun row => row.id) =
        [dupRecord].map (fun q => q.id) ∧
      (([dupRecord].map (fun q => q.id)).Nodup →
        (([dupRecord].map rowOfQuery).map (fun row => row.id)).Nodup)) :=
  save_queries_to_csv_contract [dupRecord]

/-- C6: with the credential present, the orchestrator aborts with the
no-tuples outcome exactly when the tuple stage comes back empty — persistence
is never invoked in that case, as the outcome carries no file; whenever the
tuple stage is non-empty (whatever the ambiguous and adversarial providers
do, including failing) the run completes, handing the shuffled merge of all
three category sequences to persistence; and a completed run implies the
tuple stage was non-empty, so tuple emptiness is the sole fatal condition. -/
theorem main_fatal_only_on_empty_tuples (env : ProviderEnv)
    (hkey : env.apiKeyPresent = true) :
    (mainRun env = MainOutcome.noTuples ↔ tupleStage env = []) ∧
    (tupleStage env ≠ [] →
      mainRun env =
        MainOutcome.completed
          (randomShuffle env.shuffleRand (mergedRecords env))
          (save_queries_to_csv
            (randomShuffle env.shuffleRand (mergedRecords env)))) ∧
    (∀ records csv, mainRun env = MainOutcome.completed records csv →
      tupleStage env ≠ []) := by
  have hif : mainRun env =
      (if (tupleStage env).isEmpty then MainOutcome.noTuples
       else
        MainOutcome.completed
          (randomShuffle env.shuffleRand (mergedRecords env))
          (save_queries_to_csv
            (randomShuffle env.shuffleRand (mergedRecords env)))) := by
    unfold mainRun
    rw [hkey]
    simp
  refine ⟨?_, ?_, ?_⟩
  · rw [hif]
    by_cases hemp : tupleStage env = []
    · simp [hemp]
    · have h2 : (tupleStage env).isEmpty = false := by
        cases h : tupleStage env with
        | nil => exact absurd h hemp
        | cons a l => rfl
      simp [h2, hemp]
  · intro hemp
    have h2 : (tupleStage env).isEmpty = false := by
      cases h : tupleStage env with
      | nil => exact absurd h hemp
      | cons a l => rfl
    rw [hif, h2]
    rfl
  · intro records csv hrun hemp
    rw [hif] at hrun
    have h2 : (tupleStage env).isEmpty = true := by
      rw [hemp]
      rfl
    rw [h2] at hrun
    simp at hrun

/-- Witness for C6: in `emptyTupleEnv` every tuple-stage attempt fails, the
stage is empty, and the run ends in the no-tuples outcome. -/
theorem main_fatal_only_on_empty_tuples_witness :
    (mainRun emptyTupleEnv = MainOutcome.noTuples ↔ tupleStage emptyTupleEnv = []) ∧
    (tupleStage emptyTupleEnv ≠ [] →
      mainRun emptyTupleEnv =
        MainOutcome.completed
          (randomShuffle emptyTupleEnv.shuffleRand (mergedRecords emptyTupleEnv))
          (save_queries_to_csv
            (randomShuffle emptyTupleEnv.shuffleRand
              (mergedRecords emptyTupleEnv)))) ∧
    (∀ records csv, mainRun emptyTupleEnv = MainOutcome.completed records csv →
      tupleStage emptyTupleEnv ≠ []) :=
  main_fatal_only_on_empty_tuples emptyTupleEnv rfl

/-- C9: the chatbot wrapper returns the input conversation extended by exactly
one assistant-authored entry; when the input is empty or does not begin with
a system-role entry, the fixed instruction text is prepended as a system
entry before the call, and the result is that prepended conversation extended
by the assistant entry. -/
theorem get_agent_response_appends_one (llm : List ChatMessage → String)
    (messages : List ChatMessage) :
    (messages.head?.map ChatMessage.role = some "system" →
      get_agent_response llm messages =
        messages ++ [{ role := "assistant", content := (llm messages).trim }]) ∧
    (messages.head?.map ChatMessage.role ≠ some "system" →
      get_agent_response llm messages =
        ({ role := "system", content := SYSTEM_PROMPT } :: messages)
          ++ [{ role := "assistant",
                content :=
                  (llm ({ role := "system", content := SYSTEM_PROMPT } :: messages)).trim }]) := by
  constructor
  · intro hsys
    unfold get_agent_response
    rw [if_neg (fun hne => hne hsys)]
  · intro hsys
    unfold get_agent_response
    rw [if_pos hsys]

/-- Witness for C9: a conversation already starting with a system entry gains
exactly one assistant entry. -/
theorem get_agent_response_appends_one_witness :
    get_agent_response (fun _ => "hi") [{ role := "system", content := "s" }] =
      [{ role := "system", content := "s" },
       { role := "assistant", content := (("hi" : String)).trim }] :=
  (get_agent_response_appends_one (fun _ => "hi")
    [{ role := "system", content := "s" }]).1 rfl

/-- Allocation leaves existing cells unchanged. -/
theorem readRef_allocRef_lt (h : PyStore) (v : List ChatMessage) (r : Nat)
    (hr : r < h.cells.length) : readRef (allocRef h v).1 r = readRef h r := by
  simp [readRef, allocRef, List.getD, List.getElem?_append_left hr]

/-- Reading a freshly allocated cell returns the allocated list. -/
theorem readRef_allocRef_self (h : PyStore) (v : List ChatMessage) :
    readRef (allocRef h v).1 (allocRef h v).2 = v := by
  simp [readRef, allocRef, List.getD]

/-- C10: the wrapper never mutates its argument — in the store model the cell
holding the conversation of the caller is identical before and after the
call (prepend and append each allocate a new list), and the returned cell
holds exactly the value of the pure embedding. -/
theorem get_agent_response_store_frame (llm : List ChatMessage → String)
    (h : PyStore) (r : Nat) (hr : r < h.cells.length) :
    readRef (get_agent_response_store llm h r).1 r = readRef h r ∧
    readRef (get_agent_response_store llm h r).1 (get_agent_response_store llm h r).2 =
      get_agent_response llm (readRef h r) := by
  by_cases hc : (readRef h r).head?.map ChatMessage.role ≠ some "system"
  · have hr1 : r < (allocRef h
        ({ role := "system", content := SYSTEM_PROMPT } :: readRef h r)).1.cells.length := by
      simp [allocRef]
      omega
    constructor
    · simp only [get_agent_response_store, if_pos hc]
      rw [readRef_allocRef_lt _ _ _ hr1, readRef_allocRef_lt _ _ _ hr]
    · simp only [get_agent_response_store, if_pos hc, get_agent_response, if_pos hc]
      rw [readRef_allocRef_self, readRef_allocRef_self]
  · constructor
    · simp only [get_agent_response_store, if_neg hc]
      rw [readRef_allocRef_lt _ _ _ hr]
    · simp only [get_agent_response_store, if_neg hc, get_agent_response, if_neg hc]
      rw [readRef_allocRef_self]

/-- Witness for C10: a store with one single-message conversation cell is
unchanged at that cell by the call, and the result cell holds the extended
conversation. -/
theorem get_agent_response_store_frame_witness :
    readRef
        (get_agent_response_store (fun _ => "hi")
          { cells := [[{ role := "user", content := "u" }]] } 0).1 0 =
      readRef { cells := [[{ role := "user", content := "u" }]] } 0 ∧
    readRef
        (get_agent_response_store (fun _ => "hi")
          { cells := [[{ role := "user", content := "u" }]] } 0).1
        (get_agent_response_store (fun _ => "hi")
          { cells := [[{ role := "user", content := "u" }]] } 0).2 =
      get_agent_response (fun _ => "hi")
        (readRef { cells := [[{ role := "user", content := "u" }]] } 0) :=
  get_agent_response_store_frame (fun _ => "hi")
    { cells := [[{ role := "user", content := "u" }]] } 0 (by simp)
